import Mathlib

/-!
Verification of the duplicate-tab-closer similarity engine.

The definitions below are a shallow embedding of `src/lib/fuzzy-matcher.js`
(and of the inline copy of the same engine in the popup file).  JavaScript
strings are modelled as Lean `String`s (sequences of Unicode code points; all
inputs exercised here are ASCII, where the two notions of string coincide).
JavaScript objects used as string maps (`url.params`) are modelled as
association lists kept in ECMAScript property order, the order
`Object.fromEntries` produces and `JSON.stringify` serializes: properties
whose key is an array index (the canonical decimal string of an integer
below 2^32 - 1) come first in ascending numeric order, the remaining keys
follow in insertion order, and a later write to an existing key replaces the
value in place.  `JSON.stringify` equality of two such objects with string
values is equality of those property-ordered association lists, since the
serialization is injective on them.  Query names and values are decoded the
way `URLSearchParams` decodes them (`application/x-www-form-urlencoded`:
`+` to space, percent-escapes to bytes, bytes UTF-8-decoded with U+FFFD
replacement).  `Math.round` applied to the exact
rational values produced by the score formulas is modelled by exact integer
arithmetic (round half up, i.e. `(…+5)/10` style), and JavaScript's `Number`
arithmetic on these small integer-valued expressions agrees with the exact
rational result.  The `new URL` constructor is modelled by a parser for
hierarchical `scheme://host[:port]/path[?query][#fragment]` URLs, the shape
the engine's own documentation assumes; strings not of that shape parse to
`none`, matching the `try { new URL(...) } catch { return null }` wrapper.
-/

/-- A browser tab record as consumed by the engine: `id`, `url`, `title`
(a missing title is the empty string, which is falsy in JavaScript exactly
like `undefined`). -/
structure Tab where
  id : Nat
  url : String
  title : String
deriving DecidableEq, Repr

/-- The result of `parseUrl` in `src/lib/fuzzy-matcher.js` (lines 37-53):
protocol (with trailing colon), lower-cased hostname, port, pathname with
trailing slashes stripped, raw search and hash strings, and the query
parameters as a decoded object in ECMAScript property order. -/
structure ParsedUrl where
  protocol : String
  hostname : String
  port : String
  pathname : String
  search : String
  hash : String
  params : List (String × String)
  original : String
deriving DecidableEq, Repr

/-- The verdict returned by `findSimilarity`. -/
structure Verdict where
  similar : Bool
  score : Nat
  reason : Option String
deriving DecidableEq, Repr

/-- A duplicate group `{ normalizedUrl, tabs, count }` from `analyzeTabs`. -/
structure DuplicateGroup where
  normalizedUrl : String
  tabs : List Tab
  count : Nat
deriving DecidableEq, Repr

/-- A similar pair `{ tab1, tab2, score, reason }` from `analyzeTabs`. -/
structure SimilarPair where
  tab1 : Tab
  tab2 : Tab
  score : Nat
  reason : Option String
deriving DecidableEq, Repr

/-- The full result of `analyzeTabs`. -/
structure AnalysisResult where
  exactDuplicates : List DuplicateGroup
  similarTabs : List SimilarPair
  totalDuplicates : Nat
  totalSimilar : Nat
deriving DecidableEq, Repr

/-- Does the character list `s` start with the list `pat`? -/
def startsSeq : List Char → List Char → Bool
  | _, [] => true
  | [], _ :: _ => false
  | a :: as, b :: bs => a == b && startsSeq as bs

/-- Does the character list `s` contain `pat` as a contiguous subsequence?
Models JavaScript `String.prototype.includes`. -/
def containsSeq : List Char → List Char → Bool
  | [], pat => pat.isEmpty
  | a :: as, pat => startsSeq (a :: as) pat || containsSeq as pat

/-- `s.startsWith(pat)` on strings. -/
def strStarts (s pat : String) : Bool := startsSeq s.data pat.data

/-- `s.includes(pat)` on strings. -/
def containsSub (s pat : String) : Bool := containsSeq s.data pat.data

/-- `s.toLowerCase()`; ASCII-faithful model of the JavaScript method. -/
def toLowerStr (s : String) : String := ⟨s.data.map Char.toLower⟩

/-- The UTF-8 encoding of one Unicode scalar value as a byte list. -/
def utf8EncodeChar (c : Char) : List Nat :=
  let n := c.toNat
  if n < 0x80 then [n]
  else if n < 0x800 then [0xC0 + n / 64, 0x80 + n % 64]
  else if n < 0x10000 then [0xE0 + n / 4096, 0x80 + (n / 64) % 64, 0x80 + n % 64]
  else [0xF0 + n / 262144, 0x80 + (n / 4096) % 64, 0x80 + (n / 64) % 64, 0x80 + n % 64]

/-- The UTF-8 encoding of a character sequence as a byte list. -/
def utf8Encode (cs : List Char) : List Nat := (cs.map utf8EncodeChar).flatten

/-- The value of an ASCII hex-digit byte, if it is one. -/
def hexVal (b : Nat) : Option Nat :=
  if 0x30 ≤ b ∧ b ≤ 0x39 then some (b - 0x30)
  else if 0x41 ≤ b ∧ b ≤ 0x46 then some (b - 55)
  else if 0x61 ≤ b ∧ b ≤ 0x66 then some (b - 87)
  else none

/-- Percent-decoding on bytes: `%` followed by two hex digits becomes the
denoted byte; any other `%` stays literal. -/
def percentDecode : List Nat → List Nat
  | [] => []
  | 0x25 :: h1 :: h2 :: rest =>
    match hexVal h1, hexVal h2 with
    | some a, some b => (16 * a + b) :: percentDecode rest
    | _, _ => 0x25 :: percentDecode (h1 :: h2 :: rest)
  | b :: rest => b :: percentDecode rest

/-- Is `b` a UTF-8 continuation byte? -/
def isCont (b : Nat) : Bool := 0x80 ≤ b && b ≤ 0xBF

/-- One pass of the WHATWG UTF-8 decoder with U+FFFD replacement of invalid
sequences (maximal-subpart resynchronization), as browsers apply it to the
percent-decoded bytes of query names and values.  The first argument is
recursion fuel: every step consumes at least one byte and one unit of fuel,
so with fuel ≥ the byte count the fuel never runs out. -/
def utf8DecodeF : Nat → List Nat → List Char
  | 0, _ => []
  | _ + 1, [] => []
  | fuel + 1, b :: rest =>
    if b ≤ 0x7F then Char.ofNat b :: utf8DecodeF fuel rest
    else if 0xC2 ≤ b && b ≤ 0xDF then
      match rest with
      | c1 :: rest1 =>
        if isCont c1 then
          Char.ofNat ((b - 0xC0) * 64 + (c1 - 0x80)) :: utf8DecodeF fuel rest1
        else Char.ofNat 0xFFFD :: utf8DecodeF fuel (c1 :: rest1)
      | [] => [Char.ofNat 0xFFFD]
    else if 0xE0 ≤ b && b ≤ 0xEF then
      match rest with
      | c1 :: rest1 =>
        if (if b = 0xE0 then 0xA0 else 0x80) ≤ c1 && c1 ≤ (if b = 0xED then 0x9F else 0xBF) then
          match rest1 with
          | c2 :: rest2 =>
            if isCont c2 then
              Char.ofNat ((b - 0xE0) * 4096 + (c1 - 0x80) * 64 + (c2 - 0x80)) ::
                utf8DecodeF fuel rest2
            else Char.ofNat 0xFFFD :: utf8DecodeF fuel (c2 :: rest2)
          | [] => [Char.ofNat 0xFFFD]
        else Char.ofNat 0xFFFD :: utf8DecodeF fuel (c1 :: rest1)
      | [] => [Char.ofNat 0xFFFD]
    else if 0xF0 ≤ b && b ≤ 0xF4 then
      match rest with
      | c1 :: rest1 =>
        if (if b = 0xF0 then 0x90 else 0x80) ≤ c1 && c1 ≤ (if b = 0xF4 then 0x8F else 0xBF) then
          match rest1 with
          | c2 :: rest2 =>
            if isCont c2 then
              match rest2 with
              | c3 :: rest3 =>
                if isCont c3 then
                  Char.ofNat ((b - 0xF0) * 262144 + (c1 - 0x80) * 4096 +
                    (c2 - 0x80) * 64 + (c3 - 0x80)) :: utf8DecodeF fuel rest3
                else Char.ofNat 0xFFFD :: utf8DecodeF fuel (c3 :: rest3)
              | [] => [Char.ofNat 0xFFFD]
            else Char.ofNat 0xFFFD :: utf8DecodeF fuel (c2 :: rest2)
          | [] => [Char.ofNat 0xFFFD]
        else Char.ofNat 0xFFFD :: utf8DecodeF fuel (c1 :: rest1)
      | [] => [Char.ofNat 0xFFFD]
    else Char.ofNat 0xFFFD :: utf8DecodeF fuel rest

/-- The WHATWG UTF-8 decoder with U+FFFD replacement. -/
def utf8Decode (bs : List Nat) : List Char := utf8DecodeF bs.length bs

/-- Decode one query name or value the way `URLSearchParams` does
(`application/x-www-form-urlencoded`): `+` (0x2B) becomes space, percent
escapes become bytes, and the bytes are UTF-8-decoded with replacement. -/
def decodeParam (cs : List Char) : String :=
  ⟨utf8Decode (percentDecode ((utf8Encode cs).map (fun b => if b = 0x2B then 0x20 else b)))⟩

/-- Split a character list at every `'&'`, keeping empty segments,
as `'a&&b'.split('&')` would. -/
def splitAmp : List Char → List (List Char)
  | [] => [[]]
  | '&' :: tl => [] :: splitAmp tl
  | c :: tl =>
    match splitAmp tl with
    | [] => [[c]]
    | s :: ss => (c :: s) :: ss

/-- Decode a raw query string (without the leading `?`) into key/value pairs
in textual order, as `URLSearchParams` iterates them: segments are split on
`&` and a first `=` before any decoding, empty `&`-segments are skipped, a
segment without `=` has value `""`, and each name and value is
form-urlencoded-decoded (`decodeParam`). -/
def parseQueryPairs (q : List Char) : List (String × String) :=
  ((splitAmp q).filter (fun seg => !seg.isEmpty)).map (fun seg =>
    let k := seg.takeWhile (fun c => c != '=')
    let rest := seg.drop k.length
    (decodeParam k, decodeParam (match rest with | '=' :: v => v | _ => [])))

/-- Is `c` an ASCII decimal digit? -/
def isDigitCh (c : Char) : Bool := 0x30 ≤ c.toNat && c.toNat ≤ 0x39

/-- The numeric value of a decimal digit string. -/
def digitsToNat (cs : List Char) : Nat := cs.foldl (fun n c => 10 * n + (c.toNat - 0x30)) 0

/-- Is `s` an ECMAScript array-index property key: the canonical decimal
string (no leading zero except `"0"` itself) of an integer below
2^32 - 1?  Such keys are enumerated first, in ascending numeric order. -/
def isArrayIndexKey (s : String) : Bool :=
  match s.data with
  | [] => false
  | ['0'] => true
  | c :: cs => c != '0' && (c :: cs).all isDigitCh && digitsToNat (c :: cs) < 4294967295

/-- Does the object have an own property `k`? -/
def hasKey (m : List (String × String)) (k : String) : Bool := m.any (fun kv => kv.1 == k)

/-- Overwrite the value of the existing property `k` in place. -/
def updateKey (m : List (String × String)) (k v : String) : List (String × String) :=
  match m with
  | [] => [(k, v)]
  | (k', v') :: rest => if k' = k then (k', v) :: rest else (k', v') :: updateKey rest k v

/-- Insert a fresh array-index property at its numeric position: before the
first non-index property and before any index property with a larger value. -/
def insertIdxKey (m : List (String × String)) (k v : String) : List (String × String) :=
  match m with
  | [] => [(k, v)]
  | (k', v') :: rest =>
    if !(isArrayIndexKey k') || digitsToNat k.data < digitsToNat k'.data then
      (k, v) :: (k', v') :: rest
    else (k', v') :: insertIdxKey rest k v

/-- Define property `k ↦ v` on an object kept in ECMAScript property order
(array-index keys ascending first, then other keys in insertion order): an
existing key keeps its position and gets the new value, a fresh array-index
key goes to its numeric position, any other fresh key is appended. -/
def setKey (m : List (String × String)) (k v : String) : List (String × String) :=
  if hasKey m k then updateKey m k v
  else if isArrayIndexKey k then insertIdxKey m k v
  else m ++ [(k, v)]

/-- `Object.fromEntries(entries)`: define each entry's property in order;
the resulting association list is in ECMAScript property order, the order
`JSON.stringify` serializes. -/
def objFromEntries (l : List (String × String)) : List (String × String) :=
  l.foldl (fun acc kv => setKey acc kv.1 kv.2) []

/-- Is `c` a character allowed in a URL scheme after the first letter? -/
def isSchemeChar (c : Char) : Bool := c.isAlphanum || c == '+' || c == '-' || c == '.'

/-- `parseUrl` from `src/lib/fuzzy-matcher.js` lines 37-53: wrap `new URL`
and return the comparison-relevant components, or `none` on parse failure.
The hostname is lower-cased, the pathname has trailing slashes removed
(`replace(/\/+$/, '') || '/'`), `search`/`hash` keep their `?`/`#` marker
only when non-empty, and `params` is `Object.fromEntries(url.searchParams)`. -/
def parseUrl (urlString : String) : Option ParsedUrl :=
  let cs := urlString.data
  let schemeCs := cs.takeWhile (fun c => c != ':')
  if schemeCs.isEmpty then none
  else if !(match schemeCs with | c :: _ => c.isAlpha | [] => false) then none
  else if !(schemeCs.all isSchemeChar) then none
  else
    match cs.drop schemeCs.length with
    | ':' :: '/' :: '/' :: rest =>
      let auth := rest.takeWhile (fun c => c != '/' && c != '?' && c != '#')
      let afterAuth := rest.drop auth.length
      let hostCs := auth.takeWhile (fun c => c != ':')
      let portCs := auth.drop hostCs.length
      if hostCs.isEmpty then none
      else if !(match portCs with
                | [] => true
                | ':' :: ds => ds.all Char.isDigit
                | _ => false) then none
      else
        let pathCs := afterAuth.takeWhile (fun c => c != '?' && c != '#')
        let afterPath := afterAuth.drop pathCs.length
        let queryCs := match afterPath with
          | '?' :: qrest => qrest.takeWhile (fun c => c != '#')
          | _ => []
        let fragCs := match afterPath with
          | '?' :: qrest =>
            (match qrest.drop (qrest.takeWhile (fun c => c != '#')).length with
             | '#' :: f => f
             | _ => [])
          | '#' :: f => f
          | _ => []
        let rawPath : List Char := if pathCs.isEmpty then ['/'] else pathCs
        let strippedPath := (rawPath.reverse.dropWhile (fun c => c == '/')).reverse
        some {
          protocol := (⟨schemeCs.map Char.toLower⟩ : String) ++ ":"
          hostname := ⟨hostCs.map Char.toLower⟩
          port := ⟨match portCs with | ':' :: ds => ds | _ => []⟩
          pathname := if strippedPath.isEmpty then "/" else ⟨strippedPath⟩
          search := if queryCs.isEmpty then "" else "?" ++ (⟨queryCs⟩ : String)
          hash := if fragCs.isEmpty then "" else "#" ++ (⟨fragCs⟩ : String)
          params := objFromEntries (parseQueryPairs queryCs)
          original := urlString
        }
    | _ => none

/-- `hostname.replace(/^www\./, '')`: strip one leading `www.` label. -/
def stripWww (h : String) : String := if strStarts h "www." then ⟨h.data.drop 4⟩ else h

/-- Stable insertion into a list already sorted by `le`; an element is placed
before the first existing element it does not `le`-follow, so equal elements
keep their original relative order. -/
def insertOrd (le : α → α → Bool) (a : α) : List α → List α
  | [] => [a]
  | b :: bs => if le a b then a :: b :: bs else b :: insertOrd le a bs

/-- Stable sort by the boolean order `le`.  JavaScript's `Array.prototype.sort`
is required to be stable, and a stable sort's output is uniquely determined by
the (total) comparator, so this insertion sort computes exactly what the
source's `sort` calls compute. -/
def sortOrd (le : α → α → Bool) : List α → List α
  | [] => []
  | a :: as => insertOrd le a (sortOrd le as)

/-- `arr.join('&')`. -/
def joinAmp : List String → String
  | [] => ""
  | [x] => x
  | x :: xs => x ++ "&" ++ joinAmp xs

/-- Strict lexicographic order on character lists by code point, the order
underlying JavaScript's default `Array.prototype.sort` comparator on
(ASCII) strings. -/
def strLtChars : List Char → List Char → Bool
  | [], [] => false
  | [], _ :: _ => true
  | _ :: _, [] => false
  | a :: as, b :: bs =>
    if a.toNat < b.toNat then true
    else if b.toNat < a.toNat then false
    else strLtChars as bs

/-- `a ≤ b` in the string order used by the default sort comparator. -/
def strLeStr (a b : String) : Bool := !(strLtChars b.data a.data)

/-- `parsed.params[k]` for a key known to be present (defaults to `""`). -/
def getParam (params : List (String × String)) (k : String) : String :=
  match params.find? (fun kv => kv.1 == k) with
  | some kv => kv.2
  | none => ""

/-- `Object.keys(params).sort().map(k => `k=v`).join('&')` from
`normalizeUrl`: serialize the query sorted lexicographically by key. -/
def sortedParamsStr (params : List (String × String)) : String :=
  joinAmp ((sortOrd strLeStr (params.map Prod.fst)).map
    (fun k => k ++ "=" ++ getParam params k))

/-- `normalizeUrl` from `src/lib/fuzzy-matcher.js` lines 58-74: on parse
failure return the input unchanged; otherwise rebuild
`protocol//host(without www)[:port]path[?sorted-query]`. -/
def normalizeUrl (urlString : String) : String :=
  match parseUrl urlString with
  | none => urlString
  | some parsed =>
    let hostname := stripWww parsed.hostname
    let sortedParams := sortedParamsStr parsed.params
    let query := if sortedParams = "" then "" else "?" ++ sortedParams
    parsed.protocol ++ "//" ++ hostname ++
      (if parsed.port ≠ "" then ":" ++ parsed.port else "") ++ parsed.pathname ++ query

/-- The `GOOGLE_WORKSPACE_PATTERNS` table: each regex
`^docs\.google\.com\/<kind>\/d\/([^\/]+)` is the anchored literal shown here
followed by a non-empty capture of non-`/` characters. -/
def GOOGLE_WORKSPACE_PATTERNS : List (String × String) :=
  [("docs.google.com/document/d/", "doc"),
   ("docs.google.com/spreadsheets/d/", "sheet"),
   ("docs.google.com/presentation/d/", "slides")]

/-- Match one anchored pattern against `combined`, returning the captured
document id (`[^\/]+`: the maximal non-empty run of non-`/` characters). -/
def matchPattern (pat combined : String) : Option String :=
  if strStarts combined pat then
    let rest := (combined.data.drop pat.length).takeWhile (fun c => c != '/')
    if rest.isEmpty then none else some ⟨rest⟩
  else none

/-- `getGoogleDocId` (lines 15-23): first pattern that matches
`hostname + pathname` wins, returning `{ docId, type }`. -/
def getGoogleDocId (hostname pathname : String) : Option (String × String) :=
  GOOGLE_WORKSPACE_PATTERNS.findSome? (fun pt =>
    (matchPattern pt.1 (hostname ++ pathname)).map (fun d => (d, pt.2)))

/-- The `TRACKING_PARAMS` set (lines 26-32). -/
def TRACKING_PARAMS : List String :=
  ["utm_source", "utm_medium", "utm_campaign", "utm_term", "utm_content",
   "fbclid", "gclid", "msclkid", "dclid",
   "ref", "source", "mc_cid", "mc_eid",
   "_ga", "_gl", "yclid", "wickedid",
   "twclid", "igshid", "zanpid"]

/-- One row step of the Levenshtein recurrence: given the head `xhd` of the
first string, the length of its tail (`dp[i][0] = i` base case) and the
distance function `f` for the tail, compute the distance of `xhd :: tail`
to the second argument. -/
def levStep (xhd : Char) (xslen : Nat) (f : List Char → Nat) : List Char → Nat
  | [] => xslen + 1
  | y :: ys =>
    min (f (y :: ys) + 1)
      (min (levStep xhd xslen f ys + 1) (f ys + if xhd = y then 0 else 1))

/-- Levenshtein distance on character lists with unit costs (insertion,
deletion, substitution; base cases `dp[i][0] = i`, `dp[0][j] = j`); the
nested-loop dynamic program in the source (lines 94-117) tabulates exactly
this recurrence. -/
def lev : List Char → List Char → Nat
  | [], ys => ys.length
  | x :: xs, ys => levStep x xs.length (lev xs) ys

/-- `levenshteinDistance` from the source, on strings. -/
def levenshteinDistance (str1 str2 : String) : Nat := lev str1.data str2.data

/-- `stringSimilarity` (lines 122-129): 100 for identical strings, 0 when
either is empty, otherwise `Math.round((1 - distance / maxLen) * 100)`;
the rounded value equals `(200 * (maxLen - distance) + maxLen) / (2 * maxLen)`
in integer arithmetic. -/
def stringSimilarity (str1 str2 : String) : Nat :=
  if str1 = str2 then 100
  else if str1.isEmpty || str2.isEmpty then 0
  else
    let maxLen := max str1.length str2.length
    let distance := levenshteinDistance str1 str2
    (200 * (maxLen - distance) + maxLen) / (2 * maxLen)

/-- `getNonTrackingParams` (lines 134-142): drop the entries whose
lower-cased key is in `TRACKING_PARAMS`, preserving order. -/
def getNonTrackingParams (params : List (String × String)) : List (String × String) :=
  params.filter (fun kv => !(TRACKING_PARAMS.contains (toLowerStr kv.1)))

/-- `differsByTrackingOnly` (lines 147-151): `JSON.stringify` equality of the
cleaned objects, i.e. equality of the ordered association lists. -/
def differsByTrackingOnly (params1 params2 : List (String × String)) : Bool :=
  getNonTrackingParams params1 == getNonTrackingParams params2

/-- The body of `findSimilarity` (lines 157-239) after both URLs have parsed:
the ordered heuristic chain.  Each `if` mirrors one early-return of the
source; `JSON.stringify(a) === JSON.stringify(b)` on query objects is
equality of the ordered association lists. -/
def findSimilarityParsed (tab1 tab2 : Tab) (url1 url2 : ParsedUrl) (threshold : Nat) : Verdict :=
    let host1 := stripWww url1.hostname
    let host2 := stripWww url2.hostname
    if url1.hostname ≠ url2.hostname ∧ host1 = host2 ∧ url1.pathname = url2.pathname ∧
        url1.params = url2.params then
      ⟨true, 95, some "Same page on different subdomain"⟩
    else if host1 ≠ host2 then
      ⟨false, 0, none⟩
    else if url1.pathname = url2.pathname ∧ url1.params = url2.params ∧ url1.hash ≠ url2.hash then
      ⟨true, 90, some "Same page, different section"⟩
    else if url1.pathname = url2.pathname ∧ url1.params ≠ url2.params then
      if differsByTrackingOnly url1.params url2.params then
        ⟨true, 95, some "Same page with tracking parameters"⟩
      else
        ⟨true, 85, some "Same page, different parameters"⟩
    else
      let pathSimilarity := stringSimilarity url1.pathname url2.pathname
      if threshold ≤ pathSimilarity ∧ pathSimilarity < 100 then
        ⟨true, pathSimilarity,
          some ("Similar page paths (" ++ Nat.repr pathSimilarity ++ "% match)")⟩
      else
        let domainScore := if host1 = host2 then 100 else 0
        let pathScore := stringSimilarity url1.pathname url2.pathname
        let titleScore :=
          if tab1.title ≠ "" ∧ tab2.title ≠ "" then stringSimilarity tab1.title tab2.title else 0
        let weightedScore := (4 * domainScore + 4 * pathScore + 2 * titleScore + 5) / 10
        if threshold ≤ weightedScore then
          ⟨true, weightedScore, some (Nat.repr weightedScore ++ "% overall similarity")⟩
        else
          ⟨false, weightedScore, none⟩

/-- `findSimilarity` (lines 157-239): parse both URLs, return not-similar if
either fails (`if (!url1 || !url2)`), otherwise run the heuristic chain. -/
def findSimilarity (tab1 tab2 : Tab) (threshold : Nat) : Verdict :=
  match parseUrl tab1.url, parseUrl tab2.url with
  | some url1, some url2 => findSimilarityParsed tab1 tab2 url1 url2 threshold
  | _, _ => ⟨false, 0, none⟩

/-- The tab filter at the top of `analyzeTabs` (lines 250-252): non-empty url
that is not a `chrome://` or `chrome-extension://` page. -/
def validTabsOf (tabs : List Tab) : List Tab :=
  tabs.filter (fun tab =>
    tab.url != "" && !(strStarts tab.url "chrome://") && !(strStarts tab.url "chrome-extension://"))

/-- Append `t` to the bucket of key `k` in an insertion-ordered multimap
(a JavaScript `Map` of arrays), creating the bucket at the end if absent. -/
def insertGrouped (m : List (String × List Tab)) (k : String) (t : Tab) :
    List (String × List Tab) :=
  match m with
  | [] => [(k, [t])]
  | (k', ts) :: rest =>
    if k' = k then (k', ts ++ [t]) :: rest else (k', ts) :: insertGrouped rest k t

/-- Fold a tab list into buckets keyed by `keyOf`, skipping tabs with no key;
this is the common shape of both grouping loops in `analyzeTabs`. -/
def groupFold (keyOf : Tab → Option String) (ts : List Tab) : List (String × List Tab) :=
  ts.foldl (fun m t =>
    match keyOf t with
    | some k => insertGrouped m k t
    | none => m) []

/-- The exact-duplicate grouping loop (lines 255-261): bucket every valid tab
by its normalized url. -/
def groupByNormalized (ts : List Tab) : List (String × List Tab) :=
  groupFold (fun t => some (normalizeUrl t.url)) ts

/-- The key, if any, under which the Google-Docs loop (lines 264-277) files a
tab: url non-empty and containing `docs.google.com`, parseable, and matching
a workspace pattern, giving `'gdoc:' + type + ':' + docId`. -/
def gdocKeyOf (t : Tab) : Option String :=
  if t.url != "" && containsSub t.url "docs.google.com" then
    match parseUrl t.url with
    | some parsed =>
      match getGoogleDocId parsed.hostname parsed.pathname with
      | some dt => some ("gdoc:" ++ dt.2 ++ ":" ++ dt.1)
      | none => none
    | none => none
  else none

/-- The Google-Doc grouping loop (lines 264-277). -/
def googleDocGroupsOf (ts : List Tab) : List (String × List Tab) :=
  groupFold gdocKeyOf ts

/-- First group-building loop (lines 284-294): push every Google-Doc bucket
of size ≥ 2 as a group and claim its tab ids.  The accumulator carries the
groups pushed so far and the claimed-id set. -/
def addGdocGroups (acc : List DuplicateGroup × List Nat) :
    List (String × List Tab) → List DuplicateGroup × List Nat
  | [] => acc
  | (k, g) :: rest =>
    if g.length > 1 then
      addGdocGroups (acc.1 ++ [⟨k, g, g.length⟩], acc.2 ++ g.map (fun t => t.id)) rest
    else addGdocGroups acc rest

/-- Second group-building loop (lines 297-306): for each normalized-url
bucket drop already-claimed tabs, and push the remainder as a group when it
still has ≥ 2 members, claiming its ids. -/
def addUrlGroups (acc : List DuplicateGroup × List Nat) :
    List (String × List Tab) → List DuplicateGroup × List Nat
  | [] => acc
  | (k, g) :: rest =>
    let filtered := g.filter (fun t => !(acc.2.contains t.id))
    if filtered.length > 1 then
      addUrlGroups (acc.1 ++ [⟨k, filtered, filtered.length⟩],
        acc.2 ++ filtered.map (fun t => t.id)) rest
    else addUrlGroups acc rest

/-- Lines 280-306 of `analyzeTabs`: build the duplicate groups (Google-Doc
groups first, then filtered url groups) and the claimed-id set. -/
def buildDuplicateGroups (validTabs : List Tab) : List DuplicateGroup × List Nat :=
  addUrlGroups (addGdocGroups ([], []) (googleDocGroupsOf validTabs))
    (groupByNormalized validTabs)

/-- The pair key `` `${tab1.id}-${tab2.id}` `` used by the `processed` set. -/
def pairKey (t1 t2 : Tab) : String := Nat.repr t1.id ++ "-" ++ Nat.repr t2.id

/-- The inner `j`-loop of the pairwise pass (lines 315-334), with the
`processed` set threaded through: emit each not-yet-processed pair in order
and record its key.  The similarity verdict never affects `processed`, so the
pair enumeration is independent of the threshold. -/
def innerPairs (t1 : Tab) : List Tab → List String → List (Tab × Tab) × List String
  | [], processed => ([], processed)
  | t2 :: rest, processed =>
    let k := pairKey t1 t2
    if processed.contains k then innerPairs t1 rest processed
    else
      let r := innerPairs t1 rest (processed ++ [k])
      ((t1, t2) :: r.1, r.2)

/-- The outer `i`-loop of the pairwise pass. -/
def outerPairs : List Tab → List String → List (Tab × Tab) × List String
  | [], processed => ([], processed)
  | t :: ts, processed =>
    let r1 := innerPairs t ts processed
    let r2 := outerPairs ts r1.2
    (r1.1 ++ r2.1, r2.2)

/-- All pairs the nested loops evaluate, in evaluation order. -/
def candidatePairs (pool : List Tab) : List (Tab × Tab) := (outerPairs pool []).1

/-- The `similarPairs` list built by the loop body (lines 326-333): run
`findSimilarity` on every candidate pair and keep the similar ones, in order. -/
def similarPairsOf (pool : List Tab) (threshold : Nat) : List SimilarPair :=
  (candidatePairs pool).filterMap (fun p =>
    let v := findSimilarity p.1 p.2 threshold
    if v.similar then some ⟨p.1, p.2, v.score, v.reason⟩ else none)

/-- Descending-score comparison for the final stable sort
`similarPairs.sort((a, b) => b.score - a.score)`. -/
def byScoreDesc (a b : SimilarPair) : Bool := b.score ≤ a.score

/-- `analyzeTabs` from `src/lib/fuzzy-matcher.js` (lines 244-344). -/
def analyzeTabs (tabs : List Tab) (threshold : Nat) : AnalysisResult :=
  let validTabs := validTabsOf tabs
  let built := buildDuplicateGroups validTabs
  let duplicateGroups := built.1
  let nonDuplicateTabs := validTabs.filter (fun t => !(built.2.contains t.id))
  let nonGoogleTabs :=
    (nonDuplicateTabs.filter (fun t => t.url == "" || !(containsSub t.url "docs.google.com"))).take 100
  let similarPairs := sortOrd byScoreDesc (similarPairsOf nonGoogleTabs threshold)
  { exactDuplicates := duplicateGroups
    similarTabs := similarPairs
    totalDuplicates := duplicateGroups.foldl (fun sum g => sum + g.count - 1) 0
    totalSimilar := similarPairs.length }

/-- `analyzeTabs` from the popup copy of the engine (`src/unnamed/part_000`,
lines 145-237).  Every helper it inlines is character-for-character the same
code as in `src/lib/fuzzy-matcher.js`, so the two copies share the embeddings
above; the only difference is the return value, which truncates the similar
list to 20 pairs (`slice(0, 20)`, `Math.min(similarPairs.length, 20)`). -/
def popupAnalyzeTabs (tabs : List Tab) (threshold : Nat) : AnalysisResult :=
  let validTabs := validTabsOf tabs
  let built := buildDuplicateGroups validTabs
  let duplicateGroups := built.1
  let nonDuplicateTabs := validTabs.filter (fun t => !(built.2.contains t.id))
  let nonGoogleTabs :=
    (nonDuplicateTabs.filter (fun t => t.url == "" || !(containsSub t.url "docs.google.com"))).take 100
  let similarPairs := sortOrd byScoreDesc (similarPairsOf nonGoogleTabs threshold)
  { exactDuplicates := duplicateGroups
    similarTabs := similarPairs.take 20
    totalDuplicates := duplicateGroups.foldl (fun sum g => sum + g.count - 1) 0
    totalSimilar := min similarPairs.length 20 }

/-! ## Supporting lemmas -/

theorem lev_nil_left (ys : List Char) : lev [] ys = ys.length := rfl

theorem lev_nil_right (xs : List Char) : lev xs [] = xs.length := by
  cases xs <;> rfl

theorem lev_cons_cons (x : Char) (xs : List Char) (y : Char) (ys : List Char) :
    lev (x :: xs) (y :: ys) =
      min (lev xs (y :: ys) + 1)
        (min (lev (x :: xs) ys + 1) (lev xs ys + if x = y then 0 else 1)) := rfl

theorem lev_comm : ∀ xs ys : List Char, lev xs ys = lev ys xs := by
  intro xs
  induction xs with
  | nil => intro ys; rw [lev_nil_left, lev_nil_right]
  | cons x xs ihx =>
    intro ys
    induction ys with
    | nil => rw [lev_nil_left, lev_nil_right]
    | cons y ys ihy =>
      rw [lev_cons_cons, lev_cons_cons, ihx (y :: ys), ihx ys, ihy]
      have hc : (if x = y then 0 else 1) = (if y = x then 0 else 1) := by
        by_cases h : x = y
        · subst h; rfl
        · rw [if_neg h, if_neg (fun hh => h hh.symm)]
      rw [hc]
      omega

theorem levenshteinDistance_comm (s1 s2 : String) :
    levenshteinDistance s2 s1 = levenshteinDistance s1 s2 :=
  lev_comm s2.data s1.data

theorem stringSimilarity_comm (s1 s2 : String) :
    stringSimilarity s2 s1 = stringSimilarity s1 s2 := by
  by_cases h : s1 = s2
  · rw [h]
  · unfold stringSimilarity
    rw [if_neg (fun hh => h hh.symm), if_neg h]
    refine if_congr (by rw [Bool.or_comm]) rfl ?_
    rw [Nat.max_comm, levenshteinDistance_comm]

theorem insertOrd_length (le : α → α → Bool) (a : α) (l : List α) :
    (insertOrd le a l).length = l.length + 1 := by
  induction l with
  | nil => rfl
  | cons b bs ih => simp only [insertOrd]; split <;> simp [ih]

theorem sortOrd_length (le : α → α → Bool) (l : List α) :
    (sortOrd le l).length = l.length := by
  induction l with
  | nil => rfl
  | cons a as ih => simp [sortOrd, insertOrd_length, ih]

theorem insertOrd_perm (le : α → α → Bool) (a : α) (l : List α) :
    (insertOrd le a l).Perm (a :: l) := by
  induction l with
  | nil => exact List.Perm.refl _
  | cons b bs ih =>
    simp only [insertOrd]
    split
    · exact List.Perm.refl _
    · exact (List.Perm.cons b ih).trans (List.Perm.swap a b bs)

theorem sortOrd_perm (le : α → α → Bool) (l : List α) : (sortOrd le l).Perm l := by
  induction l with
  | nil => exact List.Perm.refl _
  | cons a as ih => exact (insertOrd_perm le a (sortOrd le as)).trans (ih.cons a)

theorem mem_sortOrd (le : α → α → Bool) (l : List α) (x : α) :
    x ∈ sortOrd le l ↔ x ∈ l := (sortOrd_perm le l).mem_iff

theorem filterMap_isSome_length_mono (f g : α → Option β) (l : List α)
    (h : ∀ x ∈ l, (g x).isSome → (f x).isSome) :
    (l.filterMap g).length ≤ (l.filterMap f).length := by
  induction l with
  | nil => exact Nat.le_refl _
  | cons a as ih =>
    have ht : ∀ x ∈ as, (g x).isSome → (f x).isSome := fun x hx => h x (List.mem_cons_of_mem a hx)
    cases hg : g a with
    | none =>
      cases hf : f a with
      | none => simpa [List.filterMap_cons, hg, hf] using ih ht
      | some b =>
        simp only [List.filterMap_cons, hg, hf, List.length_cons]
        exact Nat.le_succ_of_le (ih ht)
    | some b =>
      have hfs : (f a).isSome := h a (List.mem_cons_self a as) (by simp [hg])
      cases hf : f a with
      | none => rw [hf] at hfs; simp at hfs
      | some c => simpa [List.filterMap_cons, hg, hf] using ih ht

theorem findSimilarity_eq_parsed {t1 t2 : Tab} {u1 u2 : ParsedUrl} {th : Nat}
    (h1 : parseUrl t1.url = some u1) (h2 : parseUrl t2.url = some u2) :
    findSimilarity t1 t2 th = findSimilarityParsed t1 t2 u1 u2 th := by
  unfold findSimilarity
  rw [h1, h2]

theorem findSimilarity_none_left {t1 t2 : Tab} {th : Nat}
    (h1 : parseUrl t1.url = none) : findSimilarity t1 t2 th = ⟨false, 0, none⟩ := by
  unfold findSimilarity
  rw [h1]

theorem findSimilarity_none_right {t1 t2 : Tab} {th : Nat}
    (h2 : parseUrl t2.url = none) : findSimilarity t1 t2 th = ⟨false, 0, none⟩ := by
  unfold findSimilarity
  rw [h2]
  cases parseUrl t1.url <;> rfl

set_option maxHeartbeats 1000000 in
theorem findSimilarity_similar_mono (t1 t2 : Tab) {ta tb : Nat} (hle : ta ≤ tb)
    (h : (findSimilarity t1 t2 tb).similar = true) :
    (findSimilarity t1 t2 ta).similar = true := by
  cases hp1 : parseUrl t1.url with
  | none => rw [findSimilarity_none_left hp1] at h; simp at h
  | some u1 =>
    cases hp2 : parseUrl t2.url with
    | none => rw [findSimilarity_none_right hp2] at h; simp at h
    | some u2 =>
      rw [findSimilarity_eq_parsed hp1 hp2] at h ⊢
      simp only [findSimilarityParsed] at h ⊢
      split_ifs at h ⊢ <;> simp_all <;> omega

theorem findSimilarity_similar_parses {t1 t2 : Tab} {th : Nat}
    (h : (findSimilarity t1 t2 th).similar = true) :
    (parseUrl t1.url).isSome ∧ (parseUrl t2.url).isSome := by
  cases hp1 : parseUrl t1.url with
  | none => rw [findSimilarity_none_left hp1] at h; simp at h
  | some u1 =>
    cases hp2 : parseUrl t2.url with
    | none => rw [findSimilarity_none_right hp2] at h; simp at h
    | some u2 => simp

theorem normalizeUrl_parsed {u : String} {p : ParsedUrl} (h : parseUrl u = some p) :
    normalizeUrl u =
      p.protocol ++ "//" ++ stripWww p.hostname ++
        (if p.port ≠ "" then ":" ++ p.port else "") ++ p.pathname ++
        (if sortedParamsStr p.params = "" then "" else "?" ++ sortedParamsStr p.params) := by
  unfold normalizeUrl
  rw [h]

theorem stripWww_of_not_www {h : String} (hw : strStarts h "www." = false) :
    stripWww h = h := by
  unfold stripWww
  rw [if_neg (by rw [hw]; exact Bool.false_ne_true)]

theorem findSimilarityParsed_symm (t1 t2 : Tab) (u1 u2 : ParsedUrl) (th : Nat) :
    findSimilarityParsed t2 t1 u2 u1 th = findSimilarityParsed t1 t2 u1 u2 th := by
  simp only [findSimilarityParsed]
  have hd : (if stripWww u2.hostname = stripWww u1.hostname then (100 : Nat) else 0)
      = (if stripWww u1.hostname = stripWww u2.hostname then (100 : Nat) else 0) :=
    if_congr eq_comm rfl rfl
  have htl : (if t2.title ≠ "" ∧ t1.title ≠ "" then stringSimilarity t2.title t1.title else 0)
      = (if t1.title ≠ "" ∧ t2.title ≠ "" then stringSimilarity t1.title t2.title else 0) := by
    rw [stringSimilarity_comm]
    exact if_congr and_comm rfl rfl
  rw [stringSimilarity_comm u2.pathname u1.pathname, hd, htl]
  refine if_congr ?_ rfl
    (if_congr ne_comm rfl (if_congr ?_ rfl (if_congr ?_ (if_congr ?_ rfl rfl) rfl)))
  · constructor <;> rintro ⟨a, b, c, d⟩ <;> exact ⟨a.symm, b.symm, c.symm, d.symm⟩
  · constructor <;> rintro ⟨a, b, c⟩ <;> exact ⟨a.symm, b.symm, c.symm⟩
  · constructor <;> rintro ⟨a, b⟩ <;> exact ⟨a.symm, fun hh => b hh.symm⟩
  · simp only [differsByTrackingOnly, beq_iff_eq]
    exact eq_comm

/-! ## Claims -/

/-- C10: `findSimilarity` is symmetric in its two tab arguments: for every
pair of tab records and every threshold, swapping the arguments yields the
same similar flag, the same score and the same reason. -/
theorem claim_C10_findSimilarity_symm (t1 t2 : Tab) (threshold : Nat) :
    findSimilarity t2 t1 threshold = findSimilarity t1 t2 threshold := by
  cases hp1 : parseUrl t1.url with
  | none => rw [findSimilarity_none_left hp1, findSimilarity_none_right hp1]
  | some u1 =>
    cases hp2 : parseUrl t2.url with
    | none => rw [findSimilarity_none_left hp2, findSimilarity_none_right hp2]
    | some u2 =>
      rw [findSimilarity_eq_parsed hp2 hp1, findSimilarity_eq_parsed hp1 hp2,
        findSimilarityParsed_symm]

/-- C6: for the two tabs with urls `https://example.com/page?utm_source=x`
and `https://example.com/page`, `findSimilarity` at any threshold returns
similar, score 95, reason "Same page with tracking parameters": the query
mappings are equal once tracking parameters are removed from both sides. -/
theorem claim_C6_tracking_param_pair (threshold : Nat) :
    findSimilarity ⟨1, "https://example.com/page?utm_source=x", ""⟩
      ⟨2, "https://example.com/page", ""⟩ threshold =
    ⟨true, 95, some "Same page with tracking parameters"⟩ := rfl

/-- C7: for exactly the two tabs `https://docs.google.com/document/d/ABC123/edit`
and `https://docs.google.com/document/d/ABC123/view` (distinct ids),
`analyzeTabs` returns exactly one DuplicateGroup, with key `gdoc:doc:ABC123`
and count 2, even though the two normalized full URLs differ. -/
theorem claim_C7_gdoc_group (threshold : Nat) :
    (analyzeTabs [⟨1, "https://docs.google.com/document/d/ABC123/edit", ""⟩,
        ⟨2, "https://docs.google.com/document/d/ABC123/view", ""⟩] threshold).exactDuplicates =
      [⟨"gdoc:doc:ABC123",
        [⟨1, "https://docs.google.com/document/d/ABC123/edit", ""⟩,
         ⟨2, "https://docs.google.com/document/d/ABC123/view", ""⟩], 2⟩] ∧
    normalizeUrl "https://docs.google.com/document/d/ABC123/edit" ≠
      normalizeUrl "https://docs.google.com/document/d/ABC123/view" := ⟨rfl, by decide⟩

/-- C8: cross-domain short-circuit: when both URLs parse and the hosts differ
after stripping a leading `www.`, `findSimilarity` returns not-similar with
score 0 and no reason, at every threshold and whatever the titles are. -/
theorem claim_C8_cross_domain (t1 t2 : Tab) (threshold : Nat) (u1 u2 : ParsedUrl)
    (h1 : parseUrl t1.url = some u1) (h2 : parseUrl t2.url = some u2)
    (hne : stripWww u1.hostname ≠ stripWww u2.hostname) :
    findSimilarity t1 t2 threshold = ⟨false, 0, none⟩ := by
  rw [findSimilarity_eq_parsed h1 h2]
  simp only [findSimilarityParsed]
  rw [if_neg (fun hc => hne hc.2.1), if_pos hne]

/-- Witness for C8 at a concrete cross-domain pair with identical titles. -/
theorem claim_C8_cross_domain_witness :
    parseUrl "https://alpha.com/x" = some ⟨"https:", "alpha.com", "", "/x", "", "", [], "https://alpha.com/x"⟩ ∧
    parseUrl "https://beta.com/x" = some ⟨"https:", "beta.com", "", "/x", "", "", [], "https://beta.com/x"⟩ ∧
    stripWww "alpha.com" ≠ stripWww "beta.com" ∧
    findSimilarity ⟨1, "https://alpha.com/x", "T"⟩ ⟨2, "https://beta.com/x", "T"⟩ 80 =
      ⟨false, 0, none⟩ :=
  ⟨by decide, by decide, by decide,
    claim_C8_cross_domain ⟨1, "https://alpha.com/x", "T"⟩ ⟨2, "https://beta.com/x", "T"⟩ 80
      ⟨"https:", "alpha.com", "", "/x", "", "", [], "https://alpha.com/x"⟩
      ⟨"https:", "beta.com", "", "/x", "", "", [], "https://beta.com/x"⟩
      (by decide) (by decide) (by decide)⟩

/-- C2 counterexample: query-mapping equality in the classifier is NOT
key+value set equality.  For `?a=1&b=2` versus `?b=2&a=1` (same key/value
pairs, different order) step 5 fires (similar, 85), while for two identical
queries the pair falls through to the weighted composite and is not similar
at threshold 90 — so reordered queries do not behave like identical ones.
The sensitivity is to ECMAScript property order, not to the raw query text:
reordered array-index-like keys (`?2=a&10=b` vs `?10=b&2=a`) and
differently percent-encoded values (`?a=%31` vs `?a=1`) stringify equal and
step 5 does not fire there. -/
theorem claim_C2_counterexample :
    (findSimilarity ⟨1, "https://e.com/p?a=1&b=2", ""⟩
        ⟨2, "https://e.com/p?b=2&a=1", ""⟩ 90) =
      ⟨true, 85, some "Same page, different parameters"⟩ ∧
    (findSimilarity ⟨1, "https://e.com/p?a=1&b=2", ""⟩
        ⟨3, "https://e.com/p?a=1&b=2", ""⟩ 90) = ⟨false, 80, none⟩ ∧
    (findSimilarity ⟨1, "https://e.com/p?2=a&10=b", ""⟩
        ⟨2, "https://e.com/p?10=b&2=a", ""⟩ 90) = ⟨false, 80, none⟩ ∧
    (findSimilarity ⟨1, "https://e.com/p?a=%31", ""⟩
        ⟨2, "https://e.com/p?a=1", ""⟩ 90) = ⟨false, 80, none⟩ := by decide

/-- C2 amended: query-mapping comparison in classifier steps 2/4/5 is
`JSON.stringify` equality of the decoded parameter objects in ECMAScript
property order (array-index-like keys ascending numerically first, the
remaining keys in insertion order, names and values URLSearchParams-decoded)
— not key+value set equality.  It is order-independent for array-index-like
keys and for encoding variants of the same decoded pair, but order-sensitive
for everything else: two parsed tabs with equal host and path whose
property-ordered decoded parameter lists differ (in particular, the same
non-numeric key/value pairs listed in a different order) are treated as
having different queries, so step 5 fires: similar, score 85, reason
"Same page, different parameters" (or score 95 when only tracking keys
differ, which a permutation of shared non-tracking keys never is). -/
theorem claim_C2_amended (t1 t2 : Tab) (threshold : Nat) (u1 u2 : ParsedUrl)
    (h1 : parseUrl t1.url = some u1) (h2 : parseUrl t2.url = some u2)
    (hhost : u1.hostname = u2.hostname) (hpath : u1.pathname = u2.pathname)
    (hne : u1.params ≠ u2.params)
    (htrack : getNonTrackingParams u1.params ≠ getNonTrackingParams u2.params) :
    findSimilarity t1 t2 threshold = ⟨true, 85, some "Same page, different parameters"⟩ := by
  rw [findSimilarity_eq_parsed h1 h2]
  simp only [findSimilarityParsed]
  rw [if_neg (fun hc => hc.1 hhost), if_neg (fun hc => hc (by rw [hhost])),
    if_neg (fun hc => hne hc.2.1), if_pos ⟨hpath, hne⟩,
    if_neg (fun hc => htrack (by simpa [differsByTrackingOnly, beq_iff_eq] using hc))]

/-- Witness for C2 amended at the reordered-query pair. -/
theorem claim_C2_amended_witness :
    parseUrl "https://e.com/p?a=1&b=2" =
      some ⟨"https:", "e.com", "", "/p", "?a=1&b=2", "", [("a", "1"), ("b", "2")], "https://e.com/p?a=1&b=2"⟩ ∧
    parseUrl "https://e.com/p?b=2&a=1" =
      some ⟨"https:", "e.com", "", "/p", "?b=2&a=1", "", [("b", "2"), ("a", "1")], "https://e.com/p?b=2&a=1"⟩ ∧
    ([("a", "1"), ("b", "2")] : List (String × String)) ≠ [("b", "2"), ("a", "1")] ∧
    getNonTrackingParams [("a", "1"), ("b", "2")] ≠ getNonTrackingParams [("b", "2"), ("a", "1")] ∧
    findSimilarity ⟨1, "https://e.com/p?a=1&b=2", ""⟩ ⟨2, "https://e.com/p?b=2&a=1", ""⟩ 90 =
      ⟨true, 85, some "Same page, different parameters"⟩ :=
  ⟨by decide, by decide, by decide, by decide,
    claim_C2_amended ⟨1, "https://e.com/p?a=1&b=2", ""⟩ ⟨2, "https://e.com/p?b=2&a=1", ""⟩ 90
      ⟨"https:", "e.com", "", "/p", "?a=1&b=2", "", [("a", "1"), ("b", "2")], "https://e.com/p?a=1&b=2"⟩
      ⟨"https:", "e.com", "", "/p", "?b=2&a=1", "", [("b", "2"), ("a", "1")], "https://e.com/p?b=2&a=1"⟩
      (by decide) (by decide) (by decide) (by decide) (by decide) (by decide)⟩

/-- C4: threshold monotonicity: for a fixed tab list and thresholds
`t1 ≤ t2` in 0..100, the `totalSimilar` count of `analyzeTabs tabs t2` is at
most that of `analyzeTabs tabs t1`. -/
theorem claim_C4_threshold_mono (tabs : List Tab) (t1 t2 : Nat)
    (h12 : t1 ≤ t2) (h100 : t2 ≤ 100) :
    (analyzeTabs tabs t2).totalSimilar ≤ (analyzeTabs tabs t1).totalSimilar := by
  simp only [analyzeTabs]
  rw [sortOrd_length, sortOrd_length]
  unfold similarPairsOf
  apply filterMap_isSome_length_mono
  intro x hx hsome
  by_cases hb : (findSimilarity x.1 x.2 t2).similar = true
  · have hm := findSimilarity_similar_mono x.1 x.2 h12 hb
    simp [hm]
  · simp [hb] at hsome

/-- Witness for C4 at a concrete tab list and thresholds 80 ≤ 90. -/
theorem claim_C4_threshold_mono_witness :
    (80 : Nat) ≤ 90 ∧ (90 : Nat) ≤ 100 ∧
    (analyzeTabs [⟨1, "https://w.com/abc", ""⟩, ⟨2, "https://w.com/abd", ""⟩] 90).totalSimilar ≤
      (analyzeTabs [⟨1, "https://w.com/abc", ""⟩, ⟨2, "https://w.com/abd", ""⟩] 80).totalSimilar :=
  ⟨by decide, by decide,
    claim_C4_threshold_mono [⟨1, "https://w.com/abc", ""⟩, ⟨2, "https://w.com/abd", ""⟩] 80 90
      (by decide) (by decide)⟩

/-- C3 counterexample: the two copies of the engine are NOT extensionally
equal.  Seven same-host same-path tabs with pairwise different single query
parameters produce 21 similar pairs; the library copy reports
`totalSimilar = 21` while the popup copy caps the list at 20. -/
theorem claim_C3_counterexample :
    (analyzeTabs ((List.range 7).map
        (fun i => ⟨i, "https://a.com/p?x=" ++ Nat.repr i, ""⟩)) 80).totalSimilar = 21 ∧
    (popupAnalyzeTabs ((List.range 7).map
        (fun i => ⟨i, "https://a.com/p?x=" ++ Nat.repr i, ""⟩)) 80).totalSimilar = 20 ∧
    analyzeTabs ((List.range 7).map
        (fun i => ⟨i, "https://a.com/p?x=" ++ Nat.repr i, ""⟩)) 80 ≠
      popupAnalyzeTabs ((List.range 7).map
        (fun i => ⟨i, "https://a.com/p?x=" ++ Nat.repr i, ""⟩)) 80 := by decide

/-- C3 amended: the two copies agree except that the popup copy truncates
the ranked similar list: for every tab list and threshold, the popup result
is the library result with `similarTabs` cut to its first 20 entries and
`totalSimilar` capped at 20 (so the copies coincide whenever at most 20
similar pairs are found). -/
theorem claim_C3_amended (tabs : List Tab) (threshold : Nat) :
    popupAnalyzeTabs tabs threshold =
      { analyzeTabs tabs threshold with
        similarTabs := (analyzeTabs tabs threshold).similarTabs.take 20
        totalSimilar := min (analyzeTabs tabs threshold).totalSimilar 20 } := rfl

/-- C1 counterexample: a tab whose url is not a syntactically valid URL
(non-empty, not an excluded browser scheme) is NOT excluded from exact
duplicate grouping: `normalizeUrl` falls back to the raw string, so two tabs
sharing the same unparseable url form a DuplicateGroup. -/
theorem claim_C1_counterexample :
    parseUrl "not a url" = none ∧
    (analyzeTabs [⟨1, "not a url", ""⟩, ⟨2, "not a url", ""⟩] 80).exactDuplicates =
      [⟨"not a url", [⟨1, "not a url", ""⟩, ⟨2, "not a url", ""⟩], 2⟩] := by decide

/-- C1 amended: tabs with unparseable urls are excluded from pairwise
similarity comparison — every SimilarPair in any `analyzeTabs` result has
two successfully parsing urls — but they are not excluded from
exact-duplicate grouping, where `normalizeUrl` keys them by the raw string. -/
theorem claim_C1_amended (tabs : List Tab) (threshold : Nat) (p : SimilarPair)
    (hp : p ∈ (analyzeTabs tabs threshold).similarTabs) :
    (parseUrl p.tab1.url).isSome ∧ (parseUrl p.tab2.url).isSome := by
  simp only [analyzeTabs] at hp
  rw [mem_sortOrd] at hp
  unfold similarPairsOf at hp
  rw [List.mem_filterMap] at hp
  obtain ⟨a, _, hfa⟩ := hp
  by_cases hb : (findSimilarity a.1 a.2 threshold).similar = true
  · simp only [hb, if_true] at hfa
    obtain rfl : (⟨a.1, a.2, (findSimilarity a.1 a.2 threshold).score,
        (findSimilarity a.1 a.2 threshold).reason⟩ : SimilarPair) = p := by
      simpa using hfa
    exact findSimilarity_similar_parses hb
  · simp [hb] at hfa

/-- Witness for C1 amended at a concrete pair that is reported similar. -/
theorem claim_C1_amended_witness :
    (⟨⟨1, "https://w.com/a?z=1", ""⟩, ⟨2, "https://w.com/a?z=2", ""⟩, 85,
        some "Same page, different parameters"⟩ : SimilarPair) ∈
      (analyzeTabs [⟨1, "https://w.com/a?z=1", ""⟩, ⟨2, "https://w.com/a?z=2", ""⟩] 80).similarTabs ∧
    ((parseUrl "https://w.com/a?z=1").isSome ∧ (parseUrl "https://w.com/a?z=2").isSome) :=
  ⟨by decide,
    claim_C1_amended [⟨1, "https://w.com/a?z=1", ""⟩, ⟨2, "https://w.com/a?z=2", ""⟩] 80
      ⟨⟨1, "https://w.com/a?z=1", ""⟩, ⟨2, "https://w.com/a?z=2", ""⟩, 85,
        some "Same page, different parameters"⟩ (by decide)⟩

/-- C9 counterexample: `normalizeUrl` is not idempotent on every URL whose
normalized form is itself a parseable URL of the same
scheme/host/path/query shape: `www.`-stripping removes only one label, so
`https://www.www.example.com/` normalizes to `https://www.example.com/`
(parseable, same shape), which normalizes again to `https://example.com/`. -/
theorem claim_C9_counterexample :
    (parseUrl "https://www.www.example.com/").isSome ∧
    (parseUrl (normalizeUrl "https://www.www.example.com/")).isSome ∧
    normalizeUrl (normalizeUrl "https://www.www.example.com/") ≠
      normalizeUrl "https://www.www.example.com/" := by decide

/-- C9 amended: `normalizeUrl` is idempotent on a URL `u` that parses and
whose normalized form re-parses to the serialized components (same protocol,
the www-stripped host, same port, path, and a query serializing to the same
sorted string), provided additionally that the www-stripped host does not
itself still start with `www.` (a repeated `www.www.` label is the one shape
on which the single-strip `replace(/^www\./, '')` is not idempotent). -/
theorem claim_C9_amended (u : String) (p q : ParsedUrl)
    (hu : parseUrl u = some p) (hq : parseUrl (normalizeUrl u) = some q)
    (hproto : q.protocol = p.protocol) (hhost : q.hostname = stripWww p.hostname)
    (hwww : strStarts (stripWww p.hostname) "www." = false)
    (hport : q.port = p.port) (hpath : q.pathname = p.pathname)
    (hparams : sortedParamsStr q.params = sortedParamsStr p.params) :
    normalizeUrl (normalizeUrl u) = normalizeUrl u := by
  rw [normalizeUrl_parsed hq, normalizeUrl_parsed hu, hproto, hhost, hport, hpath, hparams,
    stripWww_of_not_www hwww]

/-- Witness for C9 amended at `https://www.example.com/a/?b=2&a=1`. -/
theorem claim_C9_amended_witness :
    parseUrl "https://www.example.com/a/?b=2&a=1" =
      some ⟨"https:", "www.example.com", "", "/a", "?b=2&a=1", "",
        [("b", "2"), ("a", "1")], "https://www.example.com/a/?b=2&a=1"⟩ ∧
    parseUrl (normalizeUrl "https://www.example.com/a/?b=2&a=1") =
      some ⟨"https:", "example.com", "", "/a", "?a=1&b=2", "",
        [("a", "1"), ("b", "2")], "https://example.com/a?a=1&b=2"⟩ ∧
    strStarts (stripWww "www.example.com") "www." = false ∧
    normalizeUrl (normalizeUrl "https://www.example.com/a/?b=2&a=1") =
      normalizeUrl "https://www.example.com/a/?b=2&a=1" :=
  ⟨by decide, by decide, by decide,
    claim_C9_amended "https://www.example.com/a/?b=2&a=1"
      ⟨"https:", "www.example.com", "", "/a", "?b=2&a=1", "",
        [("b", "2"), ("a", "1")], "https://www.example.com/a/?b=2&a=1"⟩
      ⟨"https:", "example.com", "", "/a", "?a=1&b=2", "",
        [("a", "1"), ("b", "2")], "https://example.com/a?a=1&b=2"⟩
      (by decide) (by decide) (by decide) (by decide) (by decide) (by decide) (by decide) (by decide)⟩

/-! ## Supporting lemmas for the grouping invariants -/

/-- The tab ids stored in a duplicate group. -/
def idsOf (g : DuplicateGroup) : List Nat := g.tabs.map (fun t => t.id)

/-- All tabs stored in the buckets of a grouping map, in bucket order. -/
def bucketTabs (m : List (String × List Tab)) : List Tab := (m.map Prod.snd).flatten

theorem bucketTabs_insertGrouped (m : List (String × List Tab)) (k : String) (t : Tab) :
    (bucketTabs (insertGrouped m k t)).Perm (bucketTabs m ++ [t]) := by
  induction m with
  | nil => simp [insertGrouped, bucketTabs]
  | cons b rest ih =>
    obtain ⟨k', ts⟩ := b
    simp only [insertGrouped]
    split
    · simp only [bucketTabs, List.map_cons, List.flatten_cons]
      rw [List.append_assoc, List.append_assoc]
      exact List.Perm.append_left ts List.perm_append_comm
    · simp only [bucketTabs, List.map_cons, List.flatten_cons] at ih ⊢
      rw [List.append_assoc]
      exact List.Perm.append_left ts ih

theorem bucketTabs_foldGroup (keyOf : Tab → Option String) :
    ∀ (ts : List Tab) (m : List (String × List Tab)),
    (bucketTabs (ts.foldl (fun m t =>
        match keyOf t with
        | some k => insertGrouped m k t
        | none => m) m)).Perm
      (bucketTabs m ++ ts.filter (fun t => (keyOf t).isSome)) := by
  intro ts
  induction ts with
  | nil => intro m; simp
  | cons t ts ih =>
    intro m
    simp only [List.foldl_cons]
    cases hk : keyOf t with
    | none =>
      rw [List.filter_cons_of_neg (by simp [hk])]
      simpa [hk] using ih m
    | some k =>
      rw [List.filter_cons_of_pos (by simp [hk])]
      simp only [hk]
      refine (ih (insertGrouped m k t)).trans ?_
      refine ((bucketTabs_insertGrouped m k t).append_right _).trans ?_
      rw [List.append_assoc]
      exact List.Perm.refl _

theorem bucketTabs_groupFold (keyOf : Tab → Option String) (ts : List Tab) :
    (bucketTabs (groupFold keyOf ts)).Perm (ts.filter (fun t => (keyOf t).isSome)) := by
  simpa [bucketTabs] using bucketTabs_foldGroup keyOf ts []

theorem bucket_ids_pairwise_disjoint (keyOf : Tab → Option String) (ts : List Tab)
    (h : (ts.map (fun t => t.id)).Nodup) :
    List.Pairwise
      (fun b1 b2 : String × List Tab =>
        ∀ i ∈ b1.2.map (fun t => t.id), i ∉ b2.2.map (fun t => t.id))
      (groupFold keyOf ts) := by
  have hperm := bucketTabs_groupFold keyOf ts
  have hfil : ((ts.filter (fun t => (keyOf t).isSome)).map (fun t => t.id)).Nodup :=
    h.sublist ((List.filter_sublist ts).map _)
  have hnd : ((bucketTabs (groupFold keyOf ts)).map (fun t => t.id)).Nodup :=
    ((hperm.map _).nodup_iff).mpr hfil
  rw [bucketTabs, List.map_flatten, List.map_map] at hnd
  have hpw := (List.nodup_flatten.mp hnd).2
  rw [List.pairwise_map] at hpw
  exact hpw.imp (fun hd => fun i hi => hd hi)

/-- The invariant carried by the two group-building loops: groups so far have
pairwise disjoint id sets, every id in a group is claimed, and every group
has `count = tabs.length > 1`. -/
def GoodAcc (acc : List DuplicateGroup × List Nat) : Prop :=
  List.Pairwise (fun g1 g2 => ∀ i ∈ idsOf g1, i ∉ idsOf g2) acc.1 ∧
  (∀ g ∈ acc.1, ∀ i ∈ idsOf g, i ∈ acc.2) ∧
  (∀ g ∈ acc.1, g.count = g.tabs.length ∧ 1 < g.count)

theorem addUrlGroups_good (bl : List (String × List Tab)) :
    ∀ acc : List DuplicateGroup × List Nat, GoodAcc acc → GoodAcc (addUrlGroups acc bl) := by
  induction bl with
  | nil => intro acc h; exact h
  | cons b rest ih =>
    intro acc h
    obtain ⟨k, g⟩ := b
    simp only [addUrlGroups]
    split
    case isTrue hlen =>
      apply ih
      have hnotcl : ∀ i ∈ idsOf ⟨k, g.filter (fun t => !(acc.2.contains t.id)),
          (g.filter (fun t => !(acc.2.contains t.id))).length⟩, i ∉ acc.2 := by
        intro i hi
        obtain ⟨t, htmem, rfl⟩ := List.mem_map.mp hi
        have hp := (List.mem_filter.mp htmem).2
        intro hmem
        simp [List.elem_iff] at hp
        exact hp hmem
      refine ⟨?_, ?_, ?_⟩
      · rw [List.pairwise_append]
        refine ⟨h.1, by simp, ?_⟩
        intro g1 hg1 g2 hg2 i hi
        rw [List.mem_singleton] at hg2
        subst hg2
        intro hiG
        exact hnotcl i hiG (h.2.1 g1 hg1 i hi)
      · intro g' hg' i hi
        rcases List.mem_append.mp hg' with hold | hnew
        · exact List.mem_append_left _ (h.2.1 g' hold i hi)
        · rw [List.mem_singleton] at hnew
          subst hnew
          exact List.mem_append_right _ hi
      · intro g' hg'
        rcases List.mem_append.mp hg' with hold | hnew
        · exact h.2.2 g' hold
        · rw [List.mem_singleton] at hnew
          subst hnew
          exact ⟨rfl, hlen⟩
    case isFalse => exact ih acc h

theorem addGdocGroups_good (bl : List (String × List Tab)) :
    ∀ acc : List DuplicateGroup × List Nat, GoodAcc acc →
    List.Pairwise
      (fun b1 b2 : String × List Tab =>
        ∀ i ∈ b1.2.map (fun t => t.id), i ∉ b2.2.map (fun t => t.id)) bl →
    (∀ g ∈ acc.1, ∀ b ∈ bl, ∀ i ∈ idsOf g, i ∉ b.2.map (fun t => t.id)) →
    GoodAcc (addGdocGroups acc bl) := by
  induction bl with
  | nil => intro acc h _ _; exact h
  | cons b rest ih =>
    intro acc h hbl hcross
    obtain ⟨k, g⟩ := b
    simp only [addGdocGroups]
    split
    case isTrue hlen =>
      apply ih
      · refine ⟨?_, ?_, ?_⟩
        · rw [List.pairwise_append]
          refine ⟨h.1, by simp, ?_⟩
          intro g1 hg1 g2 hg2 i hi
          rw [List.mem_singleton] at hg2
          subst hg2
          exact hcross g1 hg1 (k, g) (List.mem_cons_self _ _) i hi
        · intro g' hg' i hi
          rcases List.mem_append.mp hg' with hold | hnew
          · exact List.mem_append_left _ (h.2.1 g' hold i hi)
          · rw [List.mem_singleton] at hnew
            subst hnew
            exact List.mem_append_right _ hi
        · intro g' hg'
          rcases List.mem_append.mp hg' with hold | hnew
          · exact h.2.2 g' hold
          · rw [List.mem_singleton] at hnew
            subst hnew
            exact ⟨rfl, hlen⟩
      · exact hbl.of_cons
      · intro g' hg' b' hb' i hi
        rcases List.mem_append.mp hg' with hold | hnew
        · exact hcross g' hold b' (List.mem_cons_of_mem _ hb') i hi
        · rw [List.mem_singleton] at hnew
          subst hnew
          exact List.rel_of_pairwise_cons hbl hb' i hi
    case isFalse =>
      exact ih acc h hbl.of_cons
        (fun g' hg' b' hb' => hcross g' hg' b' (List.mem_cons_of_mem _ hb'))

/-- C5: group invariant: for every input tab list with unique ids and every
threshold, the duplicate groups of `analyzeTabs` have pairwise disjoint
tab-id sets (no tab id appears in more than one group), and every emitted
group satisfies `count = tabs.length` with `count > 1`. -/
theorem claim_C5_group_invariants (tabs : List Tab) (threshold : Nat)
    (hids : (tabs.map (fun t => t.id)).Nodup) :
    List.Pairwise (fun g1 g2 => ∀ i ∈ idsOf g1, i ∉ idsOf g2)
      (analyzeTabs tabs threshold).exactDuplicates ∧
    ∀ g ∈ (analyzeTabs tabs threshold).exactDuplicates,
      g.count = g.tabs.length ∧ 1 < g.count := by
  have hvnodup : ((validTabsOf tabs).map (fun t => t.id)).Nodup := by
    unfold validTabsOf
    exact hids.sublist ((List.filter_sublist tabs).map _)
  have hbdisj := bucket_ids_pairwise_disjoint gdocKeyOf (validTabsOf tabs) hvnodup
  have hstart : GoodAcc ([], []) := ⟨List.Pairwise.nil, by simp, by simp⟩
  have hg := addGdocGroups_good (googleDocGroupsOf (validTabsOf tabs)) ([], []) hstart
    (by simpa [googleDocGroupsOf] using hbdisj) (by simp)
  have hfinal := addUrlGroups_good (groupByNormalized (validTabsOf tabs)) _ hg
  have heq : (analyzeTabs tabs threshold).exactDuplicates =
      (buildDuplicateGroups (validTabsOf tabs)).1 := rfl
  rw [heq]
  exact ⟨hfinal.1, hfinal.2.2⟩

/-- Witness for C5 at a list with a Google-Doc group and a url group. -/
theorem claim_C5_group_invariants_witness :
    (([⟨1, "https://docs.google.com/document/d/D/edit", ""⟩,
       ⟨2, "https://docs.google.com/document/d/D/view", ""⟩,
       ⟨3, "https://x.com/a", ""⟩, ⟨4, "https://www.x.com/a/", ""⟩] : List Tab).map
        (fun t => t.id)).Nodup ∧
    (List.Pairwise (fun g1 g2 => ∀ i ∈ idsOf g1, i ∉ idsOf g2)
      (analyzeTabs [⟨1, "https://docs.google.com/document/d/D/edit", ""⟩,
        ⟨2, "https://docs.google.com/document/d/D/view", ""⟩,
        ⟨3, "https://x.com/a", ""⟩, ⟨4, "https://www.x.com/a/", ""⟩] 80).exactDuplicates ∧
    ∀ g ∈ (analyzeTabs [⟨1, "https://docs.google.com/document/d/D/edit", ""⟩,
        ⟨2, "https://docs.google.com/document/d/D/view", ""⟩,
        ⟨3, "https://x.com/a", ""⟩, ⟨4, "https://www.x.com/a/", ""⟩] 80).exactDuplicates,
      g.count = g.tabs.length ∧ 1 < g.count) :=
  ⟨by decide,
    claim_C5_group_invariants [⟨1, "https://docs.google.com/document/d/D/edit", ""⟩,
      ⟨2, "https://docs.google.com/document/d/D/view", ""⟩,
      ⟨3, "https://x.com/a", ""⟩, ⟨4, "https://www.x.com/a/", ""⟩] 80 (by decide)⟩
